import Mathlib

/-!
# Drone-Vision: verification of the temporal sampling and tracking-aggregation engine

A shallow embedding of the core pipeline of the `dxd_vision` package:

* `FrameExtractor.extract` (src/dxd_vision/pipeline/extractor.py) — timestamp-based
  frame decimation;
* `ObjectTracker.track_frame` / `build_trajectories` / `build_summary`
  (src/dxd_vision/pipeline/tracker.py) — trajectory accumulation and aggregation;
* `YOLODetector.detect_frame` (src/dxd_vision/pipeline/detector.py) — class mapping
  and filtering of model output;
* `VisionPipeline.process_video` / `_build_summary` (src/dxd_vision/pipeline/pipeline.py)
  — three-way mode routing and detection aggregation;
* `VideoReader` (src/dxd_vision/pipeline/video_reader.py) — the error taxonomy of opening
  a video.

Python floats are modelled by `ℚ`, Python ints by `ℤ` (or `ℕ` for frame indices, which
are non-negative by construction), dicts by association lists in insertion order.  Image
buffers and the inference model are opaque collaborators: the model is an oracle function
supplying raw boxes per frame.  Python's `set` iteration order (hash-dependent) is
modelled by an explicit enumeration parameter `so` constrained to enumerate the distinct
elements (a permutation of `List.dedup`).
-/

namespace DroneVision

/-! ## Temporal sampler (`FrameExtractor.extract`) -/

/-- Embeds the selection loop of `FrameExtractor.extract` (general branch): for each
incoming frame index `i`, its timestamp is `i / F * 1000` ms; if it is `≥ next_target_ms`
the frame is emitted (paired with its timestamp) and the target advances by the fixed
`interval`; otherwise the frame is skipped.  The image buffer and the constant metadata
fields (fps, width, height, path) are omitted. -/
def extractLoop (F interval : ℚ) : ℚ → List ℕ → List (ℕ × ℚ)
  | _, [] => []
  | next, i :: rest =>
    if next ≤ (i : ℚ) / F * 1000 then
      (i, (i : ℚ) / F * 1000) :: extractLoop F interval (next + interval) rest
    else
      extractLoop F interval next rest

/-- Embeds `FrameExtractor.extract`: the requested target rate is clamped to
`min targetReq F`; if the clamped rate is within `0.01` of the source rate every frame is
emitted (lossless pass-through), otherwise the timestamp-selection loop runs with
interval `1000 / target` starting from target timestamp `0`. -/
def extract (F targetReq : ℚ) (frames : List ℕ) : List (ℕ × ℚ) :=
  let target := min targetReq F
  if |target - F| < 1 / 100 then
    frames.map (fun i => (i, (i : ℚ) / F * 1000))
  else
    extractLoop F (1000 / target) 0 frames

/-- Spec-side sampler, written from the spec's words (§4.1) for refinement against
`extract`: a frame is emitted exactly when its timestamp `i / F * 1000` is `≥` the
running target timestamp, which starts at `0` and after `k` emissions equals
`k * (1000 / T')` — it advances by the fixed interval `1000 / T'` on each emission and
is never reset to the emitted frame's own timestamp. -/
def specSample (F T' : ℚ) : ℕ → List ℕ → List (ℕ × ℚ)
  | _, [] => []
  | k, i :: rest =>
    if (k : ℚ) * (1000 / T') ≤ (i : ℚ) / F * 1000 then
      (i, (i : ℚ) / F * 1000) :: specSample F T' (k + 1) rest
    else
      specSample F T' k rest

/-! ## Data model (models/detection.py, models/tracking.py) -/

/-- Embeds `BoundingBox` (pixel coordinates, top-left origin). -/
structure BoundingBox where
  x : ℤ
  y : ℤ
  width : ℤ
  height : ℤ
deriving DecidableEq

/-- Embeds `Detection`. -/
structure Detection where
  class_name : String
  confidence : ℚ
  bbox : BoundingBox
  frame_number : ℕ
  timestamp_ms : ℚ
deriving DecidableEq

/-- Embeds `FrameDetections`. -/
structure FrameDetections where
  frame_number : ℕ
  timestamp_ms : ℚ
  detections : List Detection
deriving DecidableEq

/-- Embeds `DetectionSummary`.  Frame counts are `ℤ` because
`frames_without_detections` is computed by Python int subtraction. -/
structure DetectionSummary where
  total_detections : ℕ
  by_class : List (String × ℕ)
  avg_confidence : ℚ
  frames_with_detections : ℤ
  frames_without_detections : ℤ
deriving DecidableEq

/-- Embeds `TrackedDetection`. -/
structure TrackedDetection where
  track_id : ℤ
  object_id : String
  class_name : String
  confidence : ℚ
  bbox : BoundingBox
  frame_number : ℕ
  timestamp_ms : ℚ
deriving DecidableEq

/-- Embeds `FrameTracking`. -/
structure FrameTracking where
  frame_number : ℕ
  timestamp_ms : ℚ
  tracked_detections : List TrackedDetection
deriving DecidableEq

/-- Embeds `ObjectTrajectory`. -/
structure ObjectTrajectory where
  track_id : ℤ
  object_id : String
  class_name : String
  first_frame : ℕ
  last_frame : ℕ
  total_frames : ℕ
  avg_confidence : ℚ
  positions : List BoundingBox
  frame_numbers : List ℕ
deriving DecidableEq

/-- Embeds `TrackingSummary`. -/
structure TrackingSummary where
  total_unique_objects : ℕ
  by_class : List (String × ℕ)
  avg_track_length : ℚ
  longest_track : ℕ
  total_detections : ℕ
  frames_with_tracks : ℤ
  frames_without_tracks : ℤ
deriving DecidableEq

/-! ## Configuration (config/settings.py) -/

/-- Embeds `ExtractionConfig`. -/
structure ExtractionConfig where
  target_fps : ℚ := 5
  output_dir : String := "./output"
  save_sample_frame : Bool := true
  supported_formats : List String := [".mp4", ".mov", ".avi", ".mkv"]

/-- Embeds `DetectionConfig`. -/
structure DetectionConfig where
  enabled : Bool := false
  model_path : String := "yolov8n.pt"
  confidence_threshold : ℚ := 1 / 2
  nms_threshold : ℚ := 9 / 20
  target_classes : List String := ["person", "vehicle", "weapon", "package"]
  device : String := "auto"
  save_annotated_frame : Bool := true
  save_detections_json : Bool := true

/-- Modelled from the spec: `TrackingConfig` is imported from
`dxd_vision.config.settings` by tracker.py and the test suite, and
`DXDConfig.tracking` is read by pipeline.py and cli/main.py, but the class is absent
from the settings.py in the repository snapshot.  Fields follow §4.2 of the spec (a
tracking-enable toggle plus tracker options referenced by the callers). -/
structure TrackingConfig where
  enabled : Bool := false
  tracker : String := "bytetrack"
  max_age : ℕ := 30
  device : String := "auto"
  save_tracking_json : Bool := true
  save_annotated_frame : Bool := true

/-- Embeds `DXDConfig`; the `tracking` field is modelled from the spec (see
`TrackingConfig`). -/
structure DXDConfig where
  extraction : ExtractionConfig := {}
  detection : DetectionConfig := {}
  tracking : TrackingConfig := {}

/-! ## Detector (detector.py) -/

/-- Embeds the `_COCO_TO_DXD` mapping (identical in detector.py and tracker.py). -/
def cocoToDxdPairs : List (String × String) :=
  [("person", "person"), ("car", "vehicle"), ("motorcycle", "vehicle"),
   ("bus", "vehicle"), ("truck", "vehicle"), ("knife", "weapon"),
   ("backpack", "package"), ("suitcase", "package"), ("handbag", "package")]

/-- Embeds `self._class_map.get(coco_name)`. -/
def cocoToDxd (name : String) : Option String :=
  cocoToDxdPairs.lookup name

/-- One raw box of model output for `detect_frame`: the COCO class name (resolved from
`model.names[class_id]`), the confidence, and the xyxy corner coordinates (already
truncated to int, as the source does with `int(...)`). -/
structure RawBox where
  cocoName : String
  conf : ℚ
  x1 : ℤ
  y1 : ℤ
  x2 : ℤ
  y2 : ℤ
deriving DecidableEq

/-- One raw box of model output for `track_frame`: a `RawBox` plus the track id from
`boxes.id[i]`. -/
structure RawTrackBox where
  cocoName : String
  conf : ℚ
  x1 : ℤ
  y1 : ℤ
  x2 : ℤ
  y2 : ℤ
  track_id : ℤ
deriving DecidableEq

/-- Embeds `YOLODetector.detect_frame`: boxes whose COCO class has no DXD mapping, or
whose DXD class is not in `target_classes`, are skipped; the rest become `Detection`
records stamped with the frame's number and timestamp.  The frame is the pair
(frame_number, timestamp_ms); the model output is the oracle-supplied `raw` list. -/
def detectFrame (cfg : DetectionConfig) (fm : ℕ × ℚ) (raw : List RawBox) :
    FrameDetections :=
  { frame_number := fm.1
    timestamp_ms := fm.2
    detections := raw.filterMap (fun b =>
      (cocoToDxd b.cocoName).bind (fun dxd =>
        if dxd ∈ cfg.target_classes then
          some { class_name := dxd, confidence := b.conf,
                 bbox := { x := b.x1, y := b.y1,
                           width := b.x2 - b.x1, height := b.y2 - b.y1 },
                 frame_number := fm.1, timestamp_ms := fm.2 }
        else none)) }

/-! ## Tracker (tracker.py) -/

/-- One accumulated observation: the tuple
`(frame_number, dxd_class, confidence, bbox)` appended to `self._trajectories[track_id]`. -/
structure TrackEntry where
  frame : ℕ
  cls : String
  conf : ℚ
  bbox : BoundingBox
deriving DecidableEq

/-- The tracker's `_trajectories` defaultdict, as an association list in insertion
order. -/
abbrev TrackState := List (ℤ × List TrackEntry)

/-- Embeds `self._trajectories[track_id].append(entry)` on a defaultdict(list): append
to the existing key's list, or add a new key at the end. -/
def addEntry : TrackState → ℤ → TrackEntry → TrackState
  | [], tid, e => [(tid, [e])]
  | (i, es) :: rest, tid, e =>
    if i = tid then (i, es ++ [e]) :: rest
    else (i, es) :: addEntry rest tid e

/-- Lookup of a key's accumulated entry list (empty if absent). -/
def lookupEntries : TrackState → ℤ → List TrackEntry
  | [], _ => []
  | (i, es) :: rest, tid => if i = tid then es else lookupEntries rest tid

/-- The per-box filtering of `ObjectTracker.track_frame`: drop boxes whose class fails
the DXD mapping or the target-class filter, otherwise build a `TrackedDetection` with
`object_id = "{class}_{track_id}"` stamped with the frame's metadata. -/
def filterTrack (cfg : DetectionConfig) (fm : ℕ × ℚ) (b : RawTrackBox) :
    Option TrackedDetection :=
  (cocoToDxd b.cocoName).bind (fun dxd =>
    if dxd ∈ cfg.target_classes then
      some { track_id := b.track_id,
             object_id := dxd ++ "_" ++ toString b.track_id,
             class_name := dxd, confidence := b.conf,
             bbox := { x := b.x1, y := b.y1,
                       width := b.x2 - b.x1, height := b.y2 - b.y1 },
             frame_number := fm.1, timestamp_ms := fm.2 }
    else none)

/-- The accumulated observation extracted from a kept `TrackedDetection`. -/
def entryOf (td : TrackedDetection) : TrackEntry :=
  { frame := td.frame_number, cls := td.class_name, conf := td.confidence,
    bbox := td.bbox }

/-- Embeds `ObjectTracker.track_frame`: `raw = none` models `boxes.id is None` (no
tracks established — nothing is emitted and nothing accumulated); otherwise each kept
box is emitted and its observation appended to the trajectory state. -/
def trackFrame (cfg : DetectionConfig) (st : TrackState) (fm : ℕ × ℚ)
    (raw : Option (List RawTrackBox)) : FrameTracking × TrackState :=
  match raw with
  | none => ({ frame_number := fm.1, timestamp_ms := fm.2, tracked_detections := [] }, st)
  | some boxes =>
    let tracked := boxes.filterMap (filterTrack cfg fm)
    ({ frame_number := fm.1, timestamp_ms := fm.2, tracked_detections := tracked },
     tracked.foldl (fun s td => addEntry s td.track_id (entryOf td)) st)

/-- The pipeline's tracking loop (`_process_with_tracking`): feed each sampled frame to
`track_frame` in order, collecting the per-frame results and threading the tracker
state.  `trk` is the oracle for the stateful model output on each frame number. -/
def runTracking (cfg : DetectionConfig) (trk : ℕ → Option (List RawTrackBox)) :
    TrackState → List (ℕ × ℚ) → List FrameTracking × TrackState
  | st, [] => ([], st)
  | st, fm :: rest =>
    let ftst := trackFrame cfg st fm (trk fm.1)
    let restRun := runTracking cfg trk ftst.2 rest
    (ftst.1 :: restRun.1, restRun.2)

/-- Python's `min(...)` over a list (0 on the empty list, which the source never
reaches). -/
def listMin : List ℕ → ℕ
  | [] => 0
  | x :: xs => xs.foldl min x

/-- Python's `max(...)` over a list (0 on the empty list). -/
def listMax : List ℕ → ℕ
  | [] => 0
  | x :: xs => xs.foldl max x

/-- Python's `max(iterable, key=key)`: the first element attaining the maximal key
(later elements replace the current best only on a strictly greater key). -/
def pyMax (key : String → ℕ) : List String → String
  | [] => ""
  | x :: xs => xs.foldl (fun best c => if key best < key c then c else best) x

/-- Embeds `max(set(classes), key=classes.count)`.  `order` models the iteration order
of the Python `set(classes)` — some enumeration of the distinct class labels, which is
hash-dependent and in general NOT the first-encountered order. -/
def chooseClassName (classes order : List String) : String :=
  pyMax (fun c => classes.count c) order

/-- The trajectory record built for one `(track_id, entries)` pair in
`build_trajectories`. -/
def mkTrajectory (so : List String → List String) (tid : ℤ)
    (entries : List TrackEntry) : ObjectTrajectory :=
  let frame_numbers := entries.map (fun e => e.frame)
  let classes := entries.map (fun e => e.cls)
  let confs := entries.map (fun e => e.conf)
  let bboxes := entries.map (fun e => e.bbox)
  let class_name := chooseClassName classes (so classes)
  { track_id := tid
    object_id := class_name ++ "_" ++ toString tid
    class_name := class_name
    first_frame := listMin frame_numbers
    last_frame := listMax frame_numbers
    total_frames := entries.length
    avg_confidence := confs.sum / (confs.length : ℚ)
    positions := bboxes
    frame_numbers := frame_numbers }

/-- Insertion step of sorting the accumulated map by track id
(`sorted(self._trajectories.items())`; keys are unique so the id alone decides). -/
def insertById (p : ℤ × List TrackEntry) : TrackState → TrackState
  | [] => [p]
  | q :: rest => if p.1 ≤ q.1 then p :: q :: rest else q :: insertById p rest

/-- Sort the accumulated map by track id. -/
def sortById : TrackState → TrackState
  | [] => []
  | p :: rest => insertById p (sortById rest)

/-- Embeds `ObjectTracker.build_trajectories`: iterate `sorted(items)`, skip identities
with no observations, and build one `ObjectTrajectory` per remaining identity.  `so`
models Python `set` iteration order (see `chooseClassName`). -/
def buildTrajectories (so : List String → List String) (st : TrackState) :
    List ObjectTrajectory :=
  ((sortById st).filter (fun p => !p.2.isEmpty)).map (fun p => mkTrajectory so p.1 p.2)

/-- Embeds the `by_class[k] = by_class.get(k, 0) + 1` dict update, as an association
list in insertion order. -/
def bumpClass : List (String × ℕ) → String → List (String × ℕ)
  | [], c => [(c, 1)]
  | (k, v) :: rest, c =>
    if k = c then (k, v + 1) :: rest else (k, v) :: bumpClass rest c

/-- Embeds `VisionPipeline._build_summary` (pipeline.py): a single pass over the
per-frame records, counting detections, accumulating per-class counts and the
confidence sum, and counting frames with `count > 0`; `avg_confidence` falls back to 0
when there are no detections, and `frames_without_detections` is
`total_frames - frames_with`. -/
def buildDetectionSummary (records : List FrameDetections) (total_frames : ℤ) :
    DetectionSummary :=
  let dets := (records.map (fun fd => fd.detections)).flatten
  let frames_with : ℤ :=
    ((records.filter (fun fd => decide (0 < fd.detections.length))).length : ℤ)
  { total_detections := dets.length
    by_class := dets.foldl (fun m d => bumpClass m d.class_name) []
    avg_confidence :=
      if 0 < dets.length then
        (dets.map (fun d => d.confidence)).sum / (dets.length : ℚ)
      else 0
    frames_with_detections := frames_with
    frames_without_detections := total_frames - frames_with }

/-- Embeds `ObjectTracker.build_summary` (tracker.py): statistics over the built
trajectories plus raw per-frame counts; `avg_track_length` falls back to 0.0 and
`longest_track` to 0 when there are no trajectories. -/
def buildTrackingSummary (so : List String → List String) (st : TrackState)
    (fts : List FrameTracking) (total_frames : ℤ) : TrackingSummary :=
  let trajectories := buildTrajectories so st
  let track_lengths : List ℕ := trajectories.map (fun t => t.total_frames)
  let frames_with : ℤ :=
    ((fts.filter (fun ft => decide (0 < ft.tracked_detections.length))).length : ℤ)
  { total_unique_objects := trajectories.length
    by_class := trajectories.foldl (fun m t => bumpClass m t.class_name) []
    avg_track_length :=
      if track_lengths.isEmpty then 0
      else (track_lengths.sum : ℚ) / (track_lengths.length : ℚ)
    longest_track := if track_lengths.isEmpty then 0 else listMax track_lengths
    total_detections := (fts.map (fun ft => ft.tracked_detections.length)).sum
    frames_with_tracks := frames_with
    frames_without_tracks := total_frames - frames_with }

/-! ## Video reader (video_reader.py, exceptions.py) -/

/-- The three exception kinds of exceptions.py, with the payloads the constructors
store. -/
inductive VideoError where
  | videoNotFound (path : String)
  | unsupportedFormat (path : String) (supported : List String)
  | videoReadError (path : String) (reason : String)
deriving DecidableEq

/-- The exception messages built in exceptions.py. -/
def errorMessage : VideoError → String
  | .videoNotFound p => "Video file not found: " ++ p
  | .unsupportedFormat p supported =>
      "Unsupported format for '" ++ p ++ "'. Supported: " ++
        String.intercalate ", " supported
  | .videoReadError p reason =>
      "Failed to read video: " ++ p ++
        (if reason = "" then "" else " (" ++ reason ++ ")")

/-- The state of a `VideoReader` after a successful open: its resolved path and
whether the capture is still open. -/
structure VideoReaderHandle where
  path : String
  capOpen : Bool
deriving DecidableEq

/-- The filesystem/decoder facts `VideoReader.__init__` consults, as an abstract
environment: whether the resolved path is an existing file, the file's suffix, and
whether OpenCV can open it. -/
structure OpenEnv where
  isFile : Bool
  suffix : String
  decoderOpens : Bool

/-- Embeds `VideoReader.__init__`: existence check first, then the (lower-cased)
extension against the configured allow-list, then the decoder; a handle is returned
only if all three pass. -/
def openVideo (path : String) (cfg : ExtractionConfig) (env : OpenEnv) :
    Except VideoError VideoReaderHandle :=
  if env.isFile = false then .error (.videoNotFound path)
  else if env.suffix.toLower ∉ cfg.supported_formats then
    .error (.unsupportedFormat path cfg.supported_formats)
  else if env.decoderOpens = false then
    .error (.videoReadError path "OpenCV could not open file")
  else .ok { path := path, capOpen := true }

/-- Embeds `VideoReader.release`. -/
def releaseReader (r : VideoReaderHandle) : VideoReaderHandle :=
  { r with capOpen := false }

/-- Embeds `VideoReader._ensure_open`: raises `VideoReadError` when the capture is
already released. -/
def ensureOpen (r : VideoReaderHandle) : Except VideoError Unit :=
  if r.capOpen = false then
    .error (.videoReadError r.path "capture already released")
  else .ok ()

/-! ## Pipeline controller (pipeline.py) -/

/-- The three run modes of §4.2 of the spec. -/
inductive PipelineMode where
  | extractOnly
  | detect
  | track
deriving DecidableEq

/-- Embeds `ExtractionResult` (frames_extracted and extraction_fps; artifact paths and
video metadata omitted). -/
structure ExtractionResult where
  frames_extracted : ℕ
  extraction_fps : ℚ

/-- Embeds `ProcessingResult` (detection run). -/
structure ProcessingResult where
  frames_extracted : ℕ
  extraction_fps : ℚ
  detection_enabled : Bool
  detection_summary : DetectionSummary

/-- Embeds `TrackingResult` (tracking run). -/
structure TrackingResult where
  frames_extracted : ℕ
  extraction_fps : ℚ
  tracking_enabled : Bool
  tracking_summary : TrackingSummary

/-- The three disjoint result shapes `process_video` can return. -/
inductive RunResult where
  | extraction (r : ExtractionResult)
  | detection (r : ProcessingResult)
  | tracking (r : TrackingResult)

/-- The mode a result shape witnesses. -/
def resultMode : RunResult → PipelineMode
  | .extraction _ => .extractOnly
  | .detection _ => .detect
  | .tracking _ => .track

/-- Spec-side mode selection (§4.2): strict priority, evaluated once —
tracking, else detection, else extraction-only. -/
def selectMode (trackingEnabled detectionEnabled : Bool) : PipelineMode :=
  if trackingEnabled then .track
  else if detectionEnabled then .detect
  else .extractOnly

/-- Embeds `VisionPipeline.process_video`: sample the source stream, then route by the
config — tracking first, else detection, else extraction only.  `sourceFps` is the
video's native rate, `frames` the source frame indices, `det`/`trk` the model oracles,
`so` the set-iteration-order model threaded to the trajectory builder. -/
def processVideo (so : List String → List String) (cfg : DXDConfig) (sourceFps : ℚ)
    (frames : List ℕ) (det : ℕ → List RawBox) (trk : ℕ → Option (List RawTrackBox)) :
    RunResult :=
  let sampled := extract sourceFps cfg.extraction.target_fps frames
  let target_fps := min cfg.extraction.target_fps sourceFps
  if cfg.tracking.enabled then
    let run := runTracking cfg.detection trk [] sampled
    .tracking { frames_extracted := sampled.length, extraction_fps := target_fps,
                tracking_enabled := true,
                tracking_summary :=
                  buildTrackingSummary so run.2 run.1 (sampled.length : ℤ) }
  else if cfg.detection.enabled then
    let fds := sampled.map (fun fm => detectFrame cfg.detection fm (det fm.1))
    .detection { frames_extracted := sampled.length, extraction_fps := target_fps,
                 detection_enabled := true,
                 detection_summary := buildDetectionSummary fds (sampled.length : ℤ) }
  else
    .extraction { frames_extracted := sampled.length, extraction_fps := target_fps }

/-! ## Lemmas and theorems -/

lemma extractLoop_eq_specSample (F T' : ℚ) :
    ∀ (l : List ℕ) (k : ℕ),
      extractLoop F (1000 / T') ((k : ℚ) * (1000 / T')) l = specSample F T' k l := by
  intro l
  induction l with
  | nil => intro k; simp [extractLoop, specSample]
  | cons i rest ih =>
    intro k
    rw [extractLoop, specSample]
    by_cases h : (k : ℚ) * (1000 / T') ≤ (i : ℚ) / F * 1000
    · rw [if_pos h, if_pos h]
      have harg : (k : ℚ) * (1000 / T') + 1000 / T' = ((k + 1 : ℕ) : ℚ) * (1000 / T') := by
        push_cast
        ring
      rw [harg, ih (k + 1)]
    · rw [if_neg h, if_neg h, ih k]

lemma extractLoop_append (F interval : ℚ) :
    ∀ (xs ys : List ℕ) (t : ℚ),
      extractLoop F interval t (xs ++ ys) =
        extractLoop F interval t xs ++
          extractLoop F interval
            (t + ((extractLoop F interval t xs).length : ℚ) * interval) ys := by
  intro xs
  induction xs with
  | nil => intro ys t; simp [extractLoop]
  | cons i rest ih =>
    intro ys t
    show extractLoop F interval t (i :: (rest ++ ys)) = _
    rw [extractLoop]
    by_cases h : t ≤ (i : ℚ) / F * 1000
    · have hlen : extractLoop F interval t (i :: rest) =
          (i, (i : ℚ) / F * 1000) :: extractLoop F interval (t + interval) rest := by
        rw [extractLoop, if_pos h]
      rw [if_pos h, ih ys (t + interval), hlen, List.cons_append, List.length_cons]
      congr 3
      push_cast
      ring
    · have hlen : extractLoop F interval t (i :: rest) =
          extractLoop F interval t rest := by
        rw [extractLoop, if_neg h]
      rw [if_neg h, ih ys t, hlen]

lemma extractLoop_sublist (F interval : ℚ) :
    ∀ (l : List ℕ) (t : ℚ),
      List.Sublist (extractLoop F interval t l)
        (l.map (fun i => (i, (i : ℚ) / F * 1000))) := by
  intro l
  induction l with
  | nil => intro t; simp [extractLoop]
  | cons i rest ih =>
    intro t
    rw [extractLoop, List.map_cons]
    by_cases h : t ≤ (i : ℚ) / F * 1000
    · rw [if_pos h]
      exact (ih (t + interval)).cons₂ _
    · rw [if_neg h]
      exact (ih t).cons _

lemma extract_sublist (F T : ℚ) (frames : List ℕ) :
    List.Sublist (extract F T frames)
      (frames.map (fun i => (i, (i : ℚ) / F * 1000))) := by
  rw [extract]
  by_cases h : |min T F - F| < 1 / 100
  · rw [if_pos h]
  · rw [if_neg h]
    exact extractLoop_sublist F _ frames 0

lemma extractLoop_singleton (F interval t : ℚ) (i : ℕ) :
    extractLoop F interval t [i] =
      if t ≤ (i : ℚ) / F * 1000 then [(i, (i : ℚ) / F * 1000)] else [] := by
  by_cases h : t ≤ (i : ℚ) / F * 1000
  · rw [extractLoop, if_pos h, if_pos h, extractLoop]
  · rw [extractLoop, if_neg h, if_neg h, extractLoop]

lemma extractLoop_range_length (F T : ℚ) (hF : 0 < F) (hT : 0 < T) (hTF : T ≤ F) :
    ∀ N : ℕ, 1 ≤ N →
      ((extractLoop F (1000 / T) 0 (List.range N)).length : ℤ) =
        ⌊((N : ℚ) - 1) * T / F⌋ + 1 := by
  intro N
  induction N with
  | zero => intro h; omega
  | succ n ih =>
    intro _
    by_cases hn : 1 ≤ n
    · rw [List.range_succ, extractLoop_append, List.length_append,
        extractLoop_singleton]
      have ihc := ih hn
      set c : ℕ := (extractLoop F (1000 / T) 0 (List.range n)).length with hc
      have hcond_iff :
          ((0 : ℚ) + (c : ℚ) * (1000 / T) ≤ (n : ℚ) / F * 1000) ↔
            (c : ℚ) ≤ (n : ℚ) * T / F := by
        rw [zero_add,
          show (c : ℚ) * (1000 / T) = (c : ℚ) * 1000 / T by ring,
          show (n : ℚ) / F * 1000 = (n : ℚ) * 1000 / F by ring,
          div_le_div_iff₀ hT hF, le_div_iff₀ hF]
        constructor
        · intro h; nlinarith
        · intro h; nlinarith
      have hfloor_iff : ((c : ℚ) ≤ (n : ℚ) * T / F) ↔ ((c : ℤ) ≤ ⌊(n : ℚ) * T / F⌋) := by
        rw [Int.le_floor]
        push_cast
        exact Iff.rfl
      have hmono : ⌊((n : ℚ) - 1) * T / F⌋ ≤ ⌊(n : ℚ) * T / F⌋ := by
        apply Int.floor_le_floor
        have h1 : ((n : ℚ) - 1) * T / F = ((n : ℚ) - 1) * (T / F) := by ring
        have h2 : (n : ℚ) * T / F = (n : ℚ) * (T / F) := by ring
        rw [h1, h2]
        have hTF0 : 0 < T / F := div_pos hT hF
        nlinarith
      have hstep : ⌊(n : ℚ) * T / F⌋ ≤ ⌊((n : ℚ) - 1) * T / F⌋ + 1 := by
        have hTF1 : T / F ≤ 1 := (div_le_one hF).2 hTF
        have harg : (n : ℚ) * T / F ≤ ((n : ℚ) - 1) * T / F + 1 := by
          have h1 : (n : ℚ) * T / F = ((n : ℚ) - 1) * (T / F) + T / F := by ring
          have h2 : ((n : ℚ) - 1) * T / F = ((n : ℚ) - 1) * (T / F) := by ring
          rw [h1, h2]
          linarith
        calc ⌊(n : ℚ) * T / F⌋ ≤ ⌊((n : ℚ) - 1) * T / F + 1⌋ := Int.floor_le_floor harg
          _ = ⌊((n : ℚ) - 1) * T / F⌋ + 1 := by
              rw [show (1 : ℚ) = ((1 : ℤ) : ℚ) by norm_num, Int.floor_add_int]
      have hNcast : (((n : ℕ) + 1 : ℕ) : ℚ) - 1 = (n : ℚ) := by push_cast; ring
      rw [show ((((n + 1 : ℕ)) : ℚ) - 1) * T / F = (n : ℚ) * T / F by rw [hNcast]]
      by_cases hcond : (0 : ℚ) + (c : ℚ) * (1000 / T) ≤ (n : ℚ) / F * 1000
      · have hle : (c : ℤ) ≤ ⌊(n : ℚ) * T / F⌋ := hfloor_iff.1 (hcond_iff.1 hcond)
        rw [if_pos hcond]
        simp only [List.length_singleton]
        push_cast
        omega
      · have hgt : ¬ ((c : ℤ) ≤ ⌊(n : ℚ) * T / F⌋) := fun h =>
          hcond (hcond_iff.2 (hfloor_iff.2 h))
        rw [if_neg hcond]
        simp only [List.length_nil]
        push_cast
        omega
    · have hn0 : n = 0 := by omega
      subst hn0
      have hlist : extractLoop F (1000 / T) 0 (List.range 1) = [(0, (0 : ℚ) / F * 1000)] := by
        rw [show List.range 1 = [0] from rfl, extractLoop_singleton, if_pos]
        · norm_num
        · norm_num
      rw [hlist]
      norm_num

lemma extract_eq_general (F T : ℚ) (frames : List ℕ) (hTF : T ≤ F)
    (hgen : 1 / 100 ≤ F - T) :
    extract F T frames = extractLoop F (1000 / T) 0 frames := by
  rw [extract, min_eq_left hTF, if_neg]
  rw [abs_sub_comm, abs_of_nonneg (by linarith : (0 : ℚ) ≤ F - T)]
  exact not_lt.2 hgen

lemma extract_range_length (F T : ℚ) (hF : 0 < F) (hT : 0 < T) (hTF : T ≤ F)
    (hgen : 1 / 100 ≤ F - T) (N : ℕ) (hN : 1 ≤ N) :
    ((extract F T (List.range N)).length : ℤ) = ⌊((N : ℚ) - 1) * T / F⌋ + 1 := by
  rw [extract_eq_general F T _ hTF hgen]
  exact extractLoop_range_length F T hF hT hTF N hN

lemma extract_degenerate_length (F T : ℚ) (frames : List ℕ)
    (hdeg : |min T F - F| < 1 / 100) :
    (extract F T frames).length = frames.length := by
  rw [extract, if_pos hdeg, List.length_map]

lemma floor_shift_round_bound (y tf : ℚ) (h0 : 0 < tf) (h1 : tf ≤ 1) :
    |(⌊y - tf⌋ + 1) - round y| ≤ 1 := by
  rw [round_eq]
  have ha : ⌊y⌋ - 1 ≤ ⌊y - tf⌋ := by
    have : ⌊y - 1⌋ ≤ ⌊y - tf⌋ := Int.floor_le_floor (by linarith)
    rw [show y - 1 = y - ((1 : ℤ) : ℚ) by norm_num, Int.floor_sub_int] at this
    omega
  have hb : ⌊y - tf⌋ ≤ ⌊y⌋ := Int.floor_le_floor (by linarith)
  have hc : ⌊y⌋ ≤ ⌊y + 1 / 2⌋ := Int.floor_le_floor (by linarith)
  have hd : ⌊y + 1 / 2⌋ ≤ ⌊y⌋ + 1 := by
    have : ⌊y + 1 / 2⌋ ≤ ⌊y + ((1 : ℤ) : ℚ)⌋ := Int.floor_le_floor (by norm_num)
    rw [Int.floor_add_int] at this
    omega
  rw [abs_le]
  omega

/-- C1: for a positive native rate `F`, whenever the clamped target rate
`T' = min T F` is not within 0.01 of `F`, `FrameExtractor.extract` emits exactly the
frames selected by the spec's running-target sampler: a frame is emitted iff its
timestamp `i / F * 1000` ms is ≥ the running target timestamp, which starts at 0 and
advances by the fixed interval `1000 / T'` ms on each emission (after `k` emissions it
is `k * (1000 / T')` — never reset to the emitted frame's own timestamp); every other
frame is skipped, and emitted frames keep their source-native 0-based frame numbers. -/
theorem extract_matches_spec_sampler (F T : ℚ) (frames : List ℕ) (hF : 0 < F)
    (hgen : ¬ |min T F - F| < 1 / 100) :
    extract F T frames = specSample F (min T F) 0 frames := by
  rw [extract, if_neg hgen,
    show (0 : ℚ) = ((0 : ℕ) : ℚ) * (1000 / min T F) by norm_num,
    extractLoop_eq_specSample]

theorem extract_matches_spec_sampler_witness :
    ((0 : ℚ) < 30 ∧ ¬ |min (5 : ℚ) 30 - 30| < 1 / 100) ∧
      extract 30 5 [0, 1, 2, 3, 4, 5] =
        specSample 30 (min (5 : ℚ) 30) 0 [0, 1, 2, 3, 4, 5] :=
  ⟨⟨by norm_num, by rw [min_eq_left (by norm_num : (5 : ℚ) ≤ 30)]; norm_num⟩,
   extract_matches_spec_sampler 30 5 [0, 1, 2, 3, 4, 5] (by norm_num)
     (by rw [min_eq_left (by norm_num : (5 : ℚ) ≤ 30)]; norm_num)⟩

/-- C2 counterexample: a 400-frame, 1 fps source (duration D = 400 s) sampled at
target rate T = 199/200 = 0.995 ≤ F = 1 falls into the degenerate pass-through branch
(|T − F| = 0.005 < 0.01) and emits all 400 frames, while round(D·T) = round(398) =
398 — the emitted count misses the claimed round(D·T) ± 1 bound by 2. -/
theorem extract_count_round_cex :
    (0 : ℚ) < 1 ∧ (199 / 200 : ℚ) ≤ 1 ∧
      ¬ |((extract 1 (199 / 200) (List.range 400)).length : ℤ) -
          round (((400 : ℚ) / 1) * (199 / 200))| ≤ 1 := by
  refine ⟨by norm_num, by norm_num, ?_⟩
  have hlen : (extract 1 (199 / 200) (List.range 400)).length = 400 := by
    rw [extract_degenerate_length]
    · exact List.length_range 400
    · rw [min_eq_left (by norm_num : (199 / 200 : ℚ) ≤ 1), abs_sub_comm,
        abs_of_nonneg (by norm_num : (0 : ℚ) ≤ 1 - 199 / 200)]
      norm_num
  rw [hlen,
    show ((400 : ℚ) / 1) * (199 / 200) = ((398 : ℤ) : ℚ) by norm_num,
    round_intCast]
  norm_num

/-- C2 (amended): in the general branch (`F − T' ≥ 0.01`), sampling an `N`-frame
source of native rate `F > 0` at a clamped rate `0 < T ≤ F` emits exactly
`⌊(N−1)·T/F⌋ + 1` frames, which is within 1 of `round(D·T)` for the duration
`D = N/F`; concretely, a 10-second 30 fps source (300 frames) yields 50 frames at
5 fps, 10 at 1 fps, and — through the `|T' − F| < 0.01` pass-through branch — exactly
300 at 30 fps.  (The `round(D·T) ± 1` bound does NOT extend to the degenerate branch;
see the counterexample.) -/
theorem extract_count_round_bound (F T : ℚ) (N : ℕ) (hF : 0 < F) (hT : 0 < T)
    (hTF : T ≤ F) (hgen : 1 / 100 ≤ F - T) (hN : 1 ≤ N) :
    (((extract F T (List.range N)).length : ℤ) = ⌊((N : ℚ) - 1) * T / F⌋ + 1 ∧
      |((extract F T (List.range N)).length : ℤ) - round (((N : ℚ) / F) * T)| ≤ 1) ∧
    ((extract 30 5 (List.range 300)).length = 50 ∧
      (extract 30 1 (List.range 300)).length = 10 ∧
      (extract 30 30 (List.range 300)).length = 300) := by
  constructor
  · have hlen := extract_range_length F T hF hT hTF hgen N hN
    refine ⟨hlen, ?_⟩
    rw [hlen,
      show ((N : ℚ) - 1) * T / F = (N : ℚ) / F * T - T / F by ring]
    exact floor_shift_round_bound ((N : ℚ) / F * T) (T / F) (div_pos hT hF)
      ((div_le_one hF).2 hTF)
  · refine ⟨?_, ?_, ?_⟩
    · have h := extract_range_length 30 5 (by norm_num) (by norm_num) (by norm_num)
        (by norm_num) 300 (by norm_num)
      rw [show (((300 : ℕ) : ℚ) - 1) * 5 / 30 = (299 / 6 : ℚ) by norm_num] at h
      rw [show (⌊(299 / 6 : ℚ)⌋ : ℤ) = 49 by
        rw [Int.floor_eq_iff] <;> norm_num] at h
      omega
    · have h := extract_range_length 30 1 (by norm_num) (by norm_num) (by norm_num)
        (by norm_num) 300 (by norm_num)
      rw [show (((300 : ℕ) : ℚ) - 1) * 1 / 30 = (299 / 30 : ℚ) by norm_num] at h
      rw [show (⌊(299 / 30 : ℚ)⌋ : ℤ) = 9 by
        rw [Int.floor_eq_iff] <;> norm_num] at h
      omega
    · rw [extract_degenerate_length]
      · exact List.length_range 300
      · rw [min_self]
        norm_num

theorem extract_count_round_bound_witness :
    ((0 : ℚ) < 30 ∧ (0 : ℚ) < 5 ∧ (5 : ℚ) ≤ 30 ∧ (1 / 100 : ℚ) ≤ 30 - 5 ∧ 1 ≤ 300) ∧
      ((((extract 30 5 (List.range 300)).length : ℤ) =
          ⌊(((300 : ℕ) : ℚ) - 1) * 5 / 30⌋ + 1 ∧
        |((extract 30 5 (List.range 300)).length : ℤ) -
            round ((((300 : ℕ) : ℚ) / 30) * 5)| ≤ 1) ∧
       ((extract 30 5 (List.range 300)).length = 50 ∧
         (extract 30 1 (List.range 300)).length = 10 ∧
         (extract 30 30 (List.range 300)).length = 300)) :=
  ⟨⟨by norm_num, by norm_num, by norm_num, by norm_num, by norm_num⟩,
   extract_count_round_bound 30 5 300 (by norm_num) (by norm_num) (by norm_num)
     (by norm_num) (by norm_num)⟩

/-- C7: for a positive native rate and a strictly increasing source frame-index
stream, the timestamps of the frames emitted by `extract` are strictly increasing,
for every target rate. -/
theorem extract_timestamps_strictMono (F T : ℚ) (frames : List ℕ) (hF : 0 < F)
    (hmono : frames.Pairwise (· < ·)) :
    ((extract F T frames).map Prod.snd).Pairwise (· < ·) := by
  have hmap : List.Pairwise (fun p q : ℕ × ℚ => p.2 < q.2)
      (frames.map (fun (i : ℕ) => (i, (i : ℚ) / F * 1000))) := by
    rw [List.pairwise_map]
    refine hmono.imp ?_
    intro i j hij
    dsimp only
    have hij' : (i : ℚ) < (j : ℚ) := by exact_mod_cast hij
    have h1 : (i : ℚ) / F < (j : ℚ) / F := by
      exact div_lt_div_of_pos_right hij' hF
    nlinarith
  have hp := hmap.sublist (extract_sublist F T frames)
  rw [List.pairwise_map]
  exact hp

theorem extract_timestamps_strictMono_witness :
    ((0 : ℚ) < 30 ∧ ([0, 1, 2, 3] : List ℕ).Pairwise (· < ·)) ∧
      ((extract 30 5 [0, 1, 2, 3]).map Prod.snd).Pairwise (· < ·) :=
  ⟨⟨by norm_num, by decide⟩,
   extract_timestamps_strictMono 30 5 [0, 1, 2, 3] (by norm_num) (by decide)⟩

/-- C4: `process_video` selects the run mode once, by strict priority, before any
frame is processed: if tracking is enabled the run is a tracking run returning a
`TrackingResult` even when detection was not independently enabled; otherwise if
detection is enabled it is a detection run returning a `ProcessingResult`; otherwise
extraction-only returning an `ExtractionResult`.  The mode equals the spec-side
`selectMode` priority rule and depends only on the configuration — not on the frame
stream or the model oracles — so it cannot change during the run. -/
theorem process_video_mode_routing (so : List String → List String) (cfg : DXDConfig)
    (sourceFps : ℚ) (frames : List ℕ) (det : ℕ → List RawBox)
    (trk : ℕ → Option (List RawTrackBox)) :
    resultMode (processVideo so cfg sourceFps frames det trk) =
        selectMode cfg.tracking.enabled cfg.detection.enabled ∧
    (resultMode (processVideo so cfg sourceFps frames det trk) = .track ↔
        cfg.tracking.enabled = true) ∧
    (resultMode (processVideo so cfg sourceFps frames det trk) = .detect ↔
        (cfg.tracking.enabled = false ∧ cfg.detection.enabled = true)) ∧
    (resultMode (processVideo so cfg sourceFps frames det trk) = .extractOnly ↔
        (cfg.tracking.enabled = false ∧ cfg.detection.enabled = false)) ∧
    (∀ (so' : List String → List String) (sourceFps' : ℚ) (frames' : List ℕ)
        (det' : ℕ → List RawBox) (trk' : ℕ → Option (List RawTrackBox)),
      resultMode (processVideo so' cfg sourceFps' frames' det' trk') =
        resultMode (processVideo so cfg sourceFps frames det trk)) := by
  cases htrk : cfg.tracking.enabled <;> cases hdet : cfg.detection.enabled <;>
    simp [processVideo, resultMode, selectMode, htrk, hdet]

/-- C9: opening a video fails with exactly one of three distinct error kinds, checked
in order — `VideoNotFoundError` iff the path is not an existing file; otherwise
`UnsupportedFormatError` (carrying the configured allow-list, which its message
spells out) iff the lower-cased extension is not in the supported-formats list;
otherwise `VideoReadError` iff the decoder cannot open the file; a reader handle (no
partial result) iff all three checks pass.  Using the reader after `release` raises
`VideoReadError`. -/
theorem open_video_error_taxonomy (path : String) (cfg : ExtractionConfig)
    (env : OpenEnv) :
    (openVideo path cfg env = .error (.videoNotFound path) ↔ env.isFile = false) ∧
    (openVideo path cfg env = .error (.unsupportedFormat path cfg.supported_formats) ↔
      (env.isFile = true ∧ env.suffix.toLower ∉ cfg.supported_formats)) ∧
    ((∃ reason, openVideo path cfg env = .error (.videoReadError path reason)) ↔
      (env.isFile = true ∧ env.suffix.toLower ∈ cfg.supported_formats ∧
        env.decoderOpens = false)) ∧
    (openVideo path cfg env = .ok { path := path, capOpen := true } ↔
      (env.isFile = true ∧ env.suffix.toLower ∈ cfg.supported_formats ∧
        env.decoderOpens = true)) ∧
    (∀ r : VideoReaderHandle,
      ensureOpen (releaseReader r) =
        .error (.videoReadError r.path "capture already released")) ∧
    (errorMessage (.unsupportedFormat path cfg.supported_formats) =
      "Unsupported format for '" ++ path ++ "'. Supported: " ++
        String.intercalate ", " cfg.supported_formats) := by
  cases hfile : env.isFile <;>
    by_cases hfmt : env.suffix.toLower ∈ cfg.supported_formats <;>
      cases hdec : env.decoderOpens <;>
        simp [openVideo, ensureOpen, releaseReader, errorMessage, hfile, hfmt, hdec]

lemma insertById_perm (p : ℤ × List TrackEntry) :
    ∀ l : TrackState, List.Perm (insertById p l) (p :: l) := by
  intro l
  induction l with
  | nil => rw [insertById]
  | cons q rest ih =>
    rw [insertById]
    by_cases h : p.1 ≤ q.1
    · rw [if_pos h]
    · rw [if_neg h]
      exact List.Perm.trans (List.Perm.cons q ih) (List.Perm.swap p q rest)

lemma sortById_perm : ∀ st : TrackState, List.Perm (sortById st) st := by
  intro st
  induction st with
  | nil => rw [sortById]
  | cons p rest ih =>
    rw [sortById]
    exact List.Perm.trans (insertById_perm p (sortById rest)) (List.Perm.cons p ih)

lemma mem_buildTrajectories_intro (so : List String → List String) (st : TrackState)
    (p : ℤ × List TrackEntry) (hp : p ∈ st) (hne : p.2 ≠ []) :
    mkTrajectory so p.1 p.2 ∈ buildTrajectories so st := by
  rw [buildTrajectories]
  apply List.mem_map_of_mem
  rw [List.mem_filter]
  refine ⟨(sortById_perm st).mem_iff.2 hp, ?_⟩
  simpa using hne

lemma mem_buildTrajectories_elim (so : List String → List String) (st : TrackState)
    (t : ObjectTrajectory) (h : t ∈ buildTrajectories so st) :
    ∃ p, p ∈ st ∧ p.2 ≠ [] ∧ t = mkTrajectory so p.1 p.2 := by
  rw [buildTrajectories] at h
  obtain ⟨p, hp, rfl⟩ := List.mem_map.1 h
  have hp' := List.mem_filter.1 hp
  refine ⟨p, (sortById_perm st).mem_iff.1 hp'.1, ?_, rfl⟩
  simpa using hp'.2

lemma pyMax_foldl_spec (key : String → ℕ) :
    ∀ (xs : List String) (x : String),
      (xs.foldl (fun best c => if key best < key c then c else best) x) ∈ x :: xs ∧
        ∀ y ∈ x :: xs,
          key y ≤ key (xs.foldl (fun best c => if key best < key c then c else best) x) := by
  intro xs
  induction xs with
  | nil =>
    intro x
    refine ⟨by simp, ?_⟩
    intro y hy
    rw [List.mem_singleton] at hy
    rw [hy]
    simp
  | cons c xs ih =>
    intro x
    rw [List.foldl_cons]
    by_cases hxc : key x < key c
    · rw [if_pos hxc]
      obtain ⟨ihm, ihb⟩ := ih c
      constructor
      · rcases List.mem_cons.1 ihm with h | h
        · rw [h]; simp
        · simp [h]
      · intro y hy
        rcases List.mem_cons.1 hy with h | h
        · rw [h]
          have := ihb c (List.mem_cons_self _ _)
          omega
        · exact ihb y h
    · rw [if_neg hxc]
      obtain ⟨ihm, ihb⟩ := ih x
      constructor
      · rcases List.mem_cons.1 ihm with h | h
        · rw [h]; simp
        · simp [h]
      · intro y hy
        rcases List.mem_cons.1 hy with h | h
        · rw [h]
          exact ihb x (List.mem_cons_self _ _)
        · rcases List.mem_cons.1 h with h' | h'
          · rw [h']
            have := ihb x (List.mem_cons_self _ _)
            omega
          · exact ihb y (List.mem_cons_of_mem _ h')

lemma chooseClassName_spec (classes order : List String)
    (hperm : List.Perm order classes.dedup) (hne : classes ≠ []) :
    chooseClassName classes order ∈ classes ∧
      ∀ c : String, classes.count c ≤ classes.count (chooseClassName classes order) := by
  have hdne : classes.dedup ≠ [] := by
    intro h
    exact hne (by simpa using h)
  have hone : order ≠ [] := by
    intro h
    rw [h] at hperm
    exact hdne (List.Perm.nil_eq hperm).symm
  obtain ⟨y, ys, rfl⟩ := List.exists_cons_of_ne_nil hone
  have hspec := pyMax_foldl_spec (fun c => classes.count c) ys y
  rw [chooseClassName, pyMax]
  constructor
  · have hmem : (ys.foldl
        (fun best c => if classes.count best < classes.count c then c else best) y) ∈
          classes.dedup := hperm.subset hspec.1
    exact List.mem_dedup.1 hmem
  · intro c
    by_cases hc : c ∈ classes
    · have hco : c ∈ y :: ys := hperm.mem_iff.2 (List.mem_dedup.2 hc)
      exact hspec.2 c hco
    · rw [List.count_eq_zero.2 hc]
      exact Nat.zero_le _

lemma lookupEntries_cases (st : TrackState) (tid : ℤ) :
    lookupEntries st tid = [] ∨
      ∃ p, p ∈ st ∧ p.1 = tid ∧ p.2 = lookupEntries st tid := by
  induction st with
  | nil => left; rw [lookupEntries]
  | cons q rest ih =>
    obtain ⟨i, es⟩ := q
    by_cases hi : i = tid
    · right
      exact ⟨(i, es), List.mem_cons_self _ _, hi, by rw [lookupEntries, if_pos hi]⟩
    · rw [lookupEntries, if_neg hi]
      rcases ih with h | ⟨p, hp, h1, h2⟩
      · left
        exact h
      · right
        exact ⟨p, List.mem_cons_of_mem _ hp, h1, h2⟩

lemma lookupEntries_addEntry_ne (tid tid' : ℤ) (h : tid' ≠ tid) (e : TrackEntry) :
    ∀ st : TrackState,
      lookupEntries (addEntry st tid e) tid' = lookupEntries st tid' := by
  intro st
  induction st with
  | nil =>
    rw [addEntry, lookupEntries, lookupEntries, if_neg (Ne.symm h), lookupEntries]
  | cons q rest ih =>
    obtain ⟨i, es⟩ := q
    by_cases hi : i = tid
    · rw [addEntry, if_pos hi, lookupEntries, lookupEntries]
      have hne : ¬ i = tid' := by rw [hi]; exact Ne.symm h
      rw [if_neg hne, if_neg hne]
    · rw [addEntry, if_neg hi, lookupEntries, lookupEntries]
      by_cases hii : i = tid'
      · rw [if_pos hii, if_pos hii]
      · rw [if_neg hii, if_neg hii]
        exact ih

lemma addEntry_pairs (P : List TrackEntry → Prop) (tid : ℤ) (e : TrackEntry) :
    ∀ st : TrackState, (∀ p ∈ st, P p.2) →
      P (lookupEntries st tid ++ [e]) →
      ∀ p ∈ addEntry st tid e, P p.2 := by
  intro st
  induction st with
  | nil =>
    intro _ hP p hp
    rw [addEntry] at hp
    rw [List.mem_singleton] at hp
    subst hp
    rw [lookupEntries] at hP
    simpa using hP
  | cons q rest ih =>
    intro hall hP p hp
    obtain ⟨i, es⟩ := q
    by_cases hi : i = tid
    · rw [addEntry, if_pos hi] at hp
      rcases List.mem_cons.1 hp with h | h
      · subst h
        rw [lookupEntries, if_pos hi] at hP
        exact hP
      · exact hall _ (List.mem_cons_of_mem _ h)
    · rw [addEntry, if_neg hi] at hp
      rcases List.mem_cons.1 hp with h | h
      · subst h
        exact hall _ (List.mem_cons_self _ _)
      · apply ih
        · intro p' hp'
          exact hall p' (List.mem_cons_of_mem _ hp')
        · rw [lookupEntries, if_neg hi] at hP
          exact hP
        · exact h

lemma filterTrack_spec (cfg : DetectionConfig) (fm : ℕ × ℚ) (b : RawTrackBox)
    (td : TrackedDetection) (h : filterTrack cfg fm b = some td) :
    td.track_id = b.track_id ∧ td.frame_number = fm.1 ∧ td.timestamp_ms = fm.2 ∧
      td.confidence = b.conf ∧ cocoToDxd b.cocoName = some td.class_name ∧
      td.class_name ∈ cfg.target_classes := by
  rw [filterTrack] at h
  rcases hc : cocoToDxd b.cocoName with _ | dxd
  · rw [hc, Option.none_bind] at h
    exact absurd h (by simp)
  · rw [hc, Option.some_bind] at h
    by_cases ht : dxd ∈ cfg.target_classes
    · rw [if_pos ht] at h
      have heq := Option.some.inj h
      subst heq
      exact ⟨rfl, rfl, rfl, rfl, rfl, ht⟩
    · rw [if_neg ht] at h
      exact absurd h (by simp)

lemma filterMap_track_ids_sublist (cfg : DetectionConfig) (fm : ℕ × ℚ) :
    ∀ boxes : List RawTrackBox,
      List.Sublist
        ((boxes.filterMap (filterTrack cfg fm)).map (fun td => td.track_id))
        (boxes.map (fun b => b.track_id)) := by
  intro boxes
  induction boxes with
  | nil => simp
  | cons b rest ih =>
    rcases hc : filterTrack cfg fm b with _ | td
    · rw [List.filterMap_cons_none hc, List.map_cons]
      exact ih.cons _
    · rw [List.filterMap_cons_some hc, List.map_cons, List.map_cons,
        (filterTrack_spec cfg fm b td hc).1]
      exact ih.cons₂ _

lemma foldl_addEntry_good (f : ℕ) :
    ∀ (tds : List TrackedDetection) (st : TrackState),
      (∀ td ∈ tds, td.frame_number = f) →
      (tds.map (fun td => td.track_id)).Nodup →
      (∀ p ∈ st, p.2 ≠ [] ∧ (p.2.map (fun e => e.frame)).Pairwise (· < ·) ∧
        ∀ e ∈ p.2, e.frame ≤ f) →
      (∀ td ∈ tds, ∀ e ∈ lookupEntries st td.track_id, e.frame < f) →
      ∀ p ∈ tds.foldl (fun s td => addEntry s td.track_id (entryOf td)) st,
        p.2 ≠ [] ∧ (p.2.map (fun e => e.frame)).Pairwise (· < ·) ∧
          ∀ e ∈ p.2, e.frame ≤ f := by
  intro tds
  induction tds with
  | nil =>
    intro st _ _ h3 _
    simpa using h3
  | cons td tds ih =>
    intro st h1 h2 h3 h4
    rw [List.foldl_cons]
    rw [List.map_cons, List.nodup_cons] at h2
    apply ih
    · intro td' h
      exact h1 td' (List.mem_cons_of_mem _ h)
    · exact h2.2
    · -- the state after adding this frame's entry for td is still well formed
      apply addEntry_pairs
        (fun es => es ≠ [] ∧ (es.map (fun e => e.frame)).Pairwise (· < ·) ∧
          ∀ e ∈ es, e.frame ≤ f)
      · exact h3
      · have hlk : ∀ e ∈ lookupEntries st td.track_id, e.frame < f :=
          h4 td (List.mem_cons_self _ _)
        have hfr : (entryOf td).frame = f := h1 td (List.mem_cons_self _ _)
        have hpw : ((lookupEntries st td.track_id).map (fun e => e.frame)).Pairwise
            (· < ·) := by
          rcases lookupEntries_cases st td.track_id with h | ⟨p, hp, _, hpe⟩
          · rw [h]; simp
          · rw [← hpe]
            exact (h3 p hp).2.1
        refine ⟨by simp, ?_, ?_⟩
        · rw [List.map_append, List.pairwise_append]
          refine ⟨hpw, by simp, ?_⟩
          intro a ha bb hb
          rw [List.map_singleton, List.mem_singleton] at hb
          subst hb
          obtain ⟨e, he, rfl⟩ := List.mem_map.1 ha
          rw [hfr]
          exact hlk e he
        · intro e he
          rcases List.mem_append.1 he with h | h
          · exact le_of_lt (hlk e h)
          · rw [List.mem_singleton] at h
            subst h
            rw [hfr]
    · intro td' htd' e he
      have hne : td'.track_id ≠ td.track_id := by
        intro heq
        apply h2.1
        rw [← heq]
        exact List.mem_map_of_mem _ htd'
      rw [lookupEntries_addEntry_ne _ _ hne _ st] at he
      exact h4 td' (List.mem_cons_of_mem _ htd') e he

lemma runTracking_snd_cons (cfg : DetectionConfig)
    (trk : ℕ → Option (List RawTrackBox)) (st : TrackState) (fm : ℕ × ℚ)
    (rest : List (ℕ × ℚ)) :
    (runTracking cfg trk st (fm :: rest)).2 =
      (runTracking cfg trk (trackFrame cfg st fm (trk fm.1)).2 rest).2 := rfl

lemma runTracking_state_good (cfg : DetectionConfig)
    (trk : ℕ → Option (List RawTrackBox)) :
    ∀ (inputs : List (ℕ × ℚ)) (st : TrackState),
      (inputs.map Prod.fst).Pairwise (· < ·) →
      (∀ fm ∈ inputs, (((trk fm.1).getD []).map (fun b => b.track_id)).Nodup) →
      (∀ p ∈ st, p.2 ≠ [] ∧ (p.2.map (fun e => e.frame)).Pairwise (· < ·) ∧
        ∀ e ∈ p.2, ∀ fm ∈ inputs, e.frame < fm.1) →
      ∀ p ∈ (runTracking cfg trk st inputs).2,
        p.2 ≠ [] ∧ (p.2.map (fun e => e.frame)).Pairwise (· < ·) := by
  intro inputs
  induction inputs with
  | nil =>
    intro st _ _ h3 p hp
    rw [runTracking] at hp
    exact ⟨(h3 p hp).1, (h3 p hp).2.1⟩
  | cons fm rest ih =>
    intro st h1 h2 h3 p hp
    rw [runTracking_snd_cons] at hp
    rw [List.map_cons, List.pairwise_cons] at h1
    refine ih (trackFrame cfg st fm (trk fm.1)).2 h1.2
      (fun fm' h => h2 fm' (List.mem_cons_of_mem _ h)) ?_ p hp
    intro q hq
    cases hraw : trk fm.1 with
    | none =>
      rw [hraw] at hq
      have hq' : q ∈ st := hq
      refine ⟨(h3 q hq').1, (h3 q hq').2.1, ?_⟩
      intro e he fm' hm
      exact (h3 q hq').2.2 e he fm' (List.mem_cons_of_mem _ hm)
    | some boxes =>
      rw [hraw] at hq
      have hq' : q ∈ (boxes.filterMap (filterTrack cfg fm)).foldl
          (fun s td => addEntry s td.track_id (entryOf td)) st := hq
      have hframes : ∀ td ∈ boxes.filterMap (filterTrack cfg fm),
          td.frame_number = fm.1 := by
        intro td htd
        obtain ⟨b, _, hfb⟩ := List.mem_filterMap.1 htd
        exact (filterTrack_spec cfg fm b td hfb).2.1
      have hnd : ((boxes.filterMap (filterTrack cfg fm)).map
          (fun td => td.track_id)).Nodup := by
        have hnd0 := h2 fm (List.mem_cons_self _ _)
        rw [hraw] at hnd0
        simp only [Option.getD_some] at hnd0
        exact hnd0.sublist (filterMap_track_ids_sublist cfg fm boxes)
      have hst : ∀ p ∈ st, p.2 ≠ [] ∧ (p.2.map (fun e => e.frame)).Pairwise (· < ·) ∧
          ∀ e ∈ p.2, e.frame ≤ fm.1 := by
        intro q' hq''
        exact ⟨(h3 q' hq'').1, (h3 q' hq'').2.1,
          fun e he => le_of_lt ((h3 q' hq'').2.2 e he fm (List.mem_cons_self _ _))⟩
      have hlkp : ∀ td ∈ boxes.filterMap (filterTrack cfg fm),
          ∀ e ∈ lookupEntries st td.track_id, e.frame < fm.1 := by
        intro td _ e he
        rcases lookupEntries_cases st td.track_id with h | ⟨q', hq'', _, hpe⟩
        · rw [h] at he
          exact absurd he (by simp)
        · rw [← hpe] at he
          exact (h3 q' hq'').2.2 e he fm (List.mem_cons_self _ _)
      have hgood := foldl_addEntry_good fm.1 (boxes.filterMap (filterTrack cfg fm)) st
        hframes hnd hst hlkp q hq'
      refine ⟨hgood.1, hgood.2.1, ?_⟩
      intro e he fm' hm
      have hle := hgood.2.2 e he
      have hlt : fm.1 < fm'.1 := h1.1 fm'.1 (List.mem_map_of_mem _ hm)
      omega

/-- C3 counterexample: an identity observed once as "person" (first) and once as
"vehicle" has tied class counts.  Under the set enumeration ["vehicle", "person"] —
a legitimate iteration order of `set(classes)`, certified here as a permutation of the
distinct labels — `build_trajectories` names the trajectory "vehicle", not the
first-encountered "person": the tie is broken by set iteration order, which Python
does not keep equal to first-encounter order for hashed strings. -/
theorem trajectories_tiebreak_cex :
    List.Perm ["vehicle", "person"] (["person", "vehicle"].dedup) ∧
      (buildTrajectories (fun _ => ["vehicle", "person"])
          [(1, [{ frame := 0, cls := "person", conf := 9 / 10, bbox := ⟨0, 0, 0, 0⟩ },
                { frame := 1, cls := "vehicle", conf := 9 / 10, bbox := ⟨0, 0, 0, 0⟩ }])]).map (fun t => t.class_name) =
        ["vehicle"] ∧
      "vehicle" ≠ "person" := by
  refine ⟨by decide, by rfl, by decide⟩

/-- C3 (amended): for every accumulated identity with at least one observation,
`build_trajectories` emits its trajectory, and the trajectory's `class_name` is a
most frequent class label among that identity's observations — hence the unique
majority label whenever there is no tie.  Which maximal label is chosen under a tie
follows the iteration order of the Python `set` of distinct labels (modelled by `so`,
an arbitrary enumeration of the distinct labels), not necessarily the label
encountered first in observation order. -/
theorem trajectories_majority_class (so : List String → List String)
    (hso : ∀ l : List String, List.Perm (so l) l.dedup) (st : TrackState) :
    ∀ p ∈ st, p.2 ≠ [] →
      mkTrajectory so p.1 p.2 ∈ buildTrajectories so st ∧
      (mkTrajectory so p.1 p.2).class_name ∈ p.2.map (fun e => e.cls) ∧
      ∀ c : String, (p.2.map (fun e => e.cls)).count c ≤
        (p.2.map (fun e => e.cls)).count (mkTrajectory so p.1 p.2).class_name := by
  intro p hp hne
  have hclasses : p.2.map (fun e => e.cls) ≠ [] := by
    simpa using hne
  have hcs := chooseClassName_spec (p.2.map (fun e => e.cls))
      (so (p.2.map (fun e => e.cls))) (hso _) hclasses
  exact ⟨mem_buildTrajectories_intro so st p hp hne, hcs.1, hcs.2⟩

theorem trajectories_majority_class_witness :
    (∀ l : List String, List.Perm (List.dedup l) l.dedup) ∧
      ∀ p ∈ ([(1, [{ frame := 0, cls := "person", conf := 1, bbox := ⟨0, 0, 0, 0⟩ },
                    { frame := 1, cls := "person", conf := 1, bbox := ⟨0, 0, 0, 0⟩ },
                    { frame := 2, cls := "vehicle", conf := 1, bbox := ⟨0, 0, 0, 0⟩ }])] : TrackState), p.2 ≠ [] →
        mkTrajectory List.dedup p.1 p.2 ∈
            buildTrajectories List.dedup
              [(1, [{ frame := 0, cls := "person", conf := 1, bbox := ⟨0, 0, 0, 0⟩ },
                    { frame := 1, cls := "person", conf := 1, bbox := ⟨0, 0, 0, 0⟩ },
                    { frame := 2, cls := "vehicle", conf := 1, bbox := ⟨0, 0, 0, 0⟩ }])] ∧
        (mkTrajectory List.dedup p.1 p.2).class_name ∈ p.2.map (fun e => e.cls) ∧
        ∀ c : String, (p.2.map (fun e => e.cls)).count c ≤
          (p.2.map (fun e => e.cls)).count
            (mkTrajectory List.dedup p.1 p.2).class_name :=
  ⟨fun _ => List.Perm.refl _,
   trajectories_majority_class List.dedup (fun _ => List.Perm.refl _) _⟩

/-- C5: when frames are fed to the tracker in strictly ascending frame order, with at
most one observation per identity per frame, every trajectory built by
`build_trajectories` satisfies `total_frames = positions.length =
frame_numbers.length`, its `frame_numbers` are strictly increasing (sorted with no
duplicates), and `first_frame`/`last_frame` are their minimum and maximum. -/
theorem trajectory_structural_invariants (cfg : DetectionConfig)
    (so : List String → List String) (trk : ℕ → Option (List RawTrackBox))
    (inputs : List (ℕ × ℚ))
    (hasc : (inputs.map Prod.fst).Pairwise (· < ·))
    (hids : ∀ fm ∈ inputs,
      (((trk fm.1).getD []).map (fun b => b.track_id)).Nodup) :
    ∀ t ∈ buildTrajectories so (runTracking cfg trk [] inputs).2,
      t.total_frames = t.positions.length ∧
      t.total_frames = t.frame_numbers.length ∧
      t.frame_numbers.Pairwise (· < ·) ∧
      t.first_frame = listMin t.frame_numbers ∧
      t.last_frame = listMax t.frame_numbers := by
  intro t ht
  obtain ⟨p, hp, hne, rfl⟩ := mem_buildTrajectories_elim so _ t ht
  have hgood := runTracking_state_good cfg trk inputs [] hasc hids (by simp) p hp
  refine ⟨by simp [mkTrajectory], by simp [mkTrajectory], ?_, rfl, rfl⟩
  exact hgood.2

theorem trajectory_structural_invariants_witness :
    ((([((0 : ℕ), (0 : ℚ)), (1, 200)].map Prod.fst).Pairwise (· < ·)) ∧
      (∀ fm ∈ [((0 : ℕ), (0 : ℚ)), (1, 200)],
        ((((fun _ : ℕ => some [({ cocoName := "person", conf := 1, x1 := 0, y1 := 0, x2 := 2, y2 := 2, track_id := 5 } : RawTrackBox)]) fm.1).getD []).map
          (fun b => b.track_id)).Nodup)) ∧
      ∀ t ∈ buildTrajectories List.dedup
          (runTracking {}
            (fun _ : ℕ => some [({ cocoName := "person", conf := 1, x1 := 0, y1 := 0, x2 := 2, y2 := 2, track_id := 5 } : RawTrackBox)])
            [] [((0 : ℕ), (0 : ℚ)), (1, 200)]).2,
        t.total_frames = t.positions.length ∧
        t.total_frames = t.frame_numbers.length ∧
        t.frame_numbers.Pairwise (· < ·) ∧
        t.first_frame = listMin t.frame_numbers ∧
        t.last_frame = listMax t.frame_numbers :=
  ⟨⟨by decide, by decide⟩,
   trajectory_structural_invariants {} List.dedup
     (fun _ : ℕ => some [({ cocoName := "person", conf := 1, x1 := 0, y1 := 0, x2 := 2, y2 := 2, track_id := 5 } : RawTrackBox)])
     [((0 : ℕ), (0 : ℚ)), (1, 200)] (by decide) (by decide)⟩

/-- C6: with `total_frames` equal to the number of processed per-frame records, the
summaries partition the frames: `frames_with_detections + frames_without_detections =
total_frames` in `DetectionSummary` and `frames_with_tracks + frames_without_tracks =
total_frames` in `TrackingSummary`, and a frame counts as "with" exactly when its
per-frame detection/tracking list is non-empty. -/
theorem summary_frame_partition (records : List FrameDetections)
    (so : List String → List String) (st : TrackState) (fts : List FrameTracking)
    (n m : ℤ) (hn : n = (records.length : ℤ)) (hm : m = (fts.length : ℤ)) :
    ((buildDetectionSummary records n).frames_with_detections +
        (buildDetectionSummary records n).frames_without_detections = n ∧
      (buildDetectionSummary records n).frames_with_detections =
        ((records.filter (fun fd => decide (fd.detections ≠ []))).length : ℤ)) ∧
    ((buildTrackingSummary so st fts m).frames_with_tracks +
        (buildTrackingSummary so st fts m).frames_without_tracks = m ∧
      (buildTrackingSummary so st fts m).frames_with_tracks =
        ((fts.filter (fun ft => decide (ft.tracked_detections ≠ []))).length : ℤ)) := by
  have hd : (buildDetectionSummary records n).frames_with_detections =
      ((records.filter (fun fd => decide (0 < fd.detections.length))).length : ℤ) := rfl
  have hdw : (buildDetectionSummary records n).frames_without_detections =
      n - ((records.filter (fun fd => decide (0 < fd.detections.length))).length : ℤ) :=
    rfl
  have ht : (buildTrackingSummary so st fts m).frames_with_tracks =
      ((fts.filter (fun ft => decide (0 < ft.tracked_detections.length))).length : ℤ) :=
    rfl
  have htw : (buildTrackingSummary so st fts m).frames_without_tracks =
      m - ((fts.filter
        (fun ft => decide (0 < ft.tracked_detections.length))).length : ℤ) := rfl
  have hfd : records.filter (fun fd => decide (0 < fd.detections.length)) =
      records.filter (fun fd => decide (fd.detections ≠ [])) := by
    apply List.filter_congr
    intro fd _
    simp [List.length_pos]
  have hft : fts.filter (fun ft => decide (0 < ft.tracked_detections.length)) =
      fts.filter (fun ft => decide (ft.tracked_detections ≠ [])) := by
    apply List.filter_congr
    intro ft _
    simp [List.length_pos]
  refine ⟨⟨?_, ?_⟩, ?_, ?_⟩
  · rw [hd, hdw]; ring
  · rw [hd, hfd]
  · rw [ht, htw]; ring
  · rw [ht, hft]

theorem summary_frame_partition_witness :
    (((1 : ℤ) = (([({ frame_number := 0, timestamp_ms := 0, detections := [] } : FrameDetections)]).length : ℤ)) ∧
      ((1 : ℤ) = (([({ frame_number := 0, timestamp_ms := 0, tracked_detections := [] } : FrameTracking)]).length : ℤ))) ∧
      (((buildDetectionSummary
            [{ frame_number := 0, timestamp_ms := 0, detections := [] }]
            1).frames_with_detections +
          (buildDetectionSummary
            [{ frame_number := 0, timestamp_ms := 0, detections := [] }]
            1).frames_without_detections = 1 ∧
        (buildDetectionSummary
            [{ frame_number := 0, timestamp_ms := 0, detections := [] }]
            1).frames_with_detections =
          (([({ frame_number := 0, timestamp_ms := 0, detections := [] } :
              FrameDetections)].filter
                (fun fd => decide (fd.detections ≠ []))).length : ℤ)) ∧
       ((buildTrackingSummary List.dedup []
            [{ frame_number := 0, timestamp_ms := 0, tracked_detections := [] }]
            1).frames_with_tracks +
          (buildTrackingSummary List.dedup []
            [{ frame_number := 0, timestamp_ms := 0, tracked_detections := [] }]
            1).frames_without_tracks = 1 ∧
        (buildTrackingSummary List.dedup []
            [{ frame_number := 0, timestamp_ms := 0, tracked_detections := [] }]
            1).frames_with_tracks =
          (([({ frame_number := 0, timestamp_ms := 0, tracked_detections := [] } :
              FrameTracking)].filter
                (fun ft => decide (ft.tracked_detections ≠ []))).length : ℤ))) :=
  ⟨⟨by decide, by decide⟩,
   summary_frame_partition
     [{ frame_number := 0, timestamp_ms := 0, detections := [] }] List.dedup []
     [{ frame_number := 0, timestamp_ms := 0, tracked_detections := [] }]
     1 1 (by decide) (by decide)⟩

/-- C8: `avg_confidence` is exactly 0 when there are zero detections, and
`avg_track_length` is exactly 0 when there are zero trajectories — the mean's
division is guarded by the emptiness check, so the zero-denominator case is never
evaluated. -/
theorem avg_zero_guards (records : List FrameDetections) (n : ℤ)
    (so : List String → List String) (st : TrackState) (fts : List FrameTracking)
    (m : ℤ) :
    ((buildDetectionSummary records n).total_detections = 0 →
      (buildDetectionSummary records n).avg_confidence = 0) ∧
    (buildTrajectories so st = [] →
      (buildTrackingSummary so st fts m).avg_track_length = 0) := by
  constructor
  · intro h
    have hlen : ((records.map (fun fd => fd.detections)).flatten).length = 0 := h
    show (if 0 < ((records.map (fun fd => fd.detections)).flatten).length then
        (((records.map (fun fd => fd.detections)).flatten).map
            (fun d => d.confidence)).sum /
          ((((records.map (fun fd => fd.detections)).flatten).length : ℕ) : ℚ)
      else 0) = 0
    rw [if_neg (by omega)]
  · intro h
    show (if ((buildTrajectories so st).map (fun t => t.total_frames)).isEmpty then
        (0 : ℚ)
      else ((((buildTrajectories so st).map (fun t => t.total_frames)).sum : ℕ) : ℚ) /
        ((((buildTrajectories so st).map (fun t => t.total_frames)).length : ℕ) : ℚ)) =
      0
    rw [h]
    rfl

theorem avg_zero_guards_witness :
    ((buildDetectionSummary [] 0).total_detections = 0 ∧
      buildTrajectories List.dedup [] = []) ∧
      ((buildDetectionSummary [] 0).avg_confidence = 0 ∧
        (buildTrackingSummary List.dedup [] [] 0).avg_track_length = 0) :=
  ⟨⟨by rfl, by rfl⟩,
   ⟨(avg_zero_guards [] 0 List.dedup [] [] 0).1 (by rfl),
    (avg_zero_guards [] 0 List.dedup [] [] 0).2 (by rfl)⟩⟩

/-- C10: every `Detection` returned by `detect_frame` and every `TrackedDetection`
returned by `track_frame` has a `class_name` that is the DXD image of some raw box's
COCO class under the `_COCO_TO_DXD` mapping and lies in the configured
`target_classes`, and carries the input frame's `frame_number` and `timestamp_ms`;
raw boxes failing the mapping or the filter produce no output (they are dropped, not
relabeled). -/
theorem detections_filtered_and_stamped (cfg : DetectionConfig) (fm : ℕ × ℚ)
    (raw : List RawBox) (st : TrackState) (rawT : Option (List RawTrackBox)) :
    (∀ d ∈ (detectFrame cfg fm raw).detections,
      d.class_name ∈ cfg.target_classes ∧
      (∃ b ∈ raw, cocoToDxd b.cocoName = some d.class_name ∧
        d.confidence = b.conf) ∧
      d.frame_number = fm.1 ∧ d.timestamp_ms = fm.2) ∧
    (∀ td ∈ (trackFrame cfg st fm rawT).1.tracked_detections,
      td.class_name ∈ cfg.target_classes ∧
      (∃ bs, rawT = some bs ∧ ∃ b ∈ bs,
        cocoToDxd b.cocoName = some td.class_name ∧ td.confidence = b.conf) ∧
      td.frame_number = fm.1 ∧ td.timestamp_ms = fm.2) := by
  constructor
  · intro d hd
    have hd' : d ∈ raw.filterMap (fun b =>
        (cocoToDxd b.cocoName).bind (fun dxd =>
          if dxd ∈ cfg.target_classes then
            some { class_name := dxd, confidence := b.conf,
                   bbox := { x := b.x1, y := b.y1,
                             width := b.x2 - b.x1, height := b.y2 - b.y1 },
                   frame_number := fm.1, timestamp_ms := fm.2 }
          else none)) := hd
    obtain ⟨b, hb, hfb⟩ := List.mem_filterMap.1 hd'
    rcases hc : cocoToDxd b.cocoName with _ | dxd
    · rw [hc, Option.none_bind] at hfb
      exact absurd hfb (by simp)
    · rw [hc, Option.some_bind] at hfb
      by_cases ht : dxd ∈ cfg.target_classes
      · rw [if_pos ht] at hfb
        have heq := Option.some.inj hfb
        subst heq
        exact ⟨ht, ⟨b, hb, hc, rfl⟩, rfl, rfl⟩
      · rw [if_neg ht] at hfb
        exact absurd hfb (by simp)
  · intro td htd
    cases rawT with
    | none => exact absurd htd (by simp [trackFrame])
    | some boxes =>
      have htd' : td ∈ boxes.filterMap (filterTrack cfg fm) := htd
      obtain ⟨b, hb, hfb⟩ := List.mem_filterMap.1 htd'
      have hs := filterTrack_spec cfg fm b td hfb
      exact ⟨hs.2.2.2.2.2, ⟨boxes, rfl, ⟨b, hb, hs.2.2.2.2.1, hs.2.2.2.1⟩⟩,
        hs.2.1, hs.2.2.1⟩

theorem detections_filtered_and_stamped_witness :
    (({ class_name := "person", confidence := 1, bbox := { x := 0, y := 0, width := 10, height := 10 }, frame_number := 3, timestamp_ms := 100 } : Detection) ∈
        (detectFrame {} (3, 100)
          [{ cocoName := "person", conf := 1, x1 := 0, y1 := 0, x2 := 10, y2 := 10 }]).detections ∧
      ({ track_id := 7, object_id := "vehicle_7", class_name := "vehicle", confidence := 1, bbox := { x := 0, y := 0, width := 4, height := 4 }, frame_number := 3, timestamp_ms := 100 } : TrackedDetection) ∈
        (trackFrame {} [] (3, 100)
          (some [{ cocoName := "car", conf := 1, x1 := 0, y1 := 0, x2 := 4, y2 := 4, track_id := 7 }])).1.tracked_detections) ∧
      ((∀ d ∈ (detectFrame {} (3, 100)
            [{ cocoName := "person", conf := 1, x1 := 0, y1 := 0, x2 := 10, y2 := 10 }]).detections,
          d.class_name ∈ ({} : DetectionConfig).target_classes ∧
          (∃ b ∈ [({ cocoName := "person", conf := 1, x1 := 0, y1 := 0, x2 := 10, y2 := 10 } : RawBox)],
            cocoToDxd b.cocoName = some d.class_name ∧ d.confidence = b.conf) ∧
          d.frame_number = (3, (100 : ℚ)).1 ∧ d.timestamp_ms = (3, (100 : ℚ)).2) ∧
        (∀ td ∈ (trackFrame {} [] (3, 100)
            (some [{ cocoName := "car", conf := 1, x1 := 0, y1 := 0, x2 := 4, y2 := 4, track_id := 7 }])).1.tracked_detections,
          td.class_name ∈ ({} : DetectionConfig).target_classes ∧
          (∃ bs, (some [({ cocoName := "car", conf := 1, x1 := 0, y1 := 0, x2 := 4, y2 := 4, track_id := 7 } : RawTrackBox)] : Option (List RawTrackBox)) = some bs ∧
            ∃ b ∈ bs, cocoToDxd b.cocoName = some td.class_name ∧
              td.confidence = b.conf) ∧
          td.frame_number = (3, (100 : ℚ)).1 ∧ td.timestamp_ms = (3, (100 : ℚ)).2)) :=
  ⟨⟨by decide, by decide⟩,
   detections_filtered_and_stamped {} (3, 100)
     [{ cocoName := "person", conf := 1, x1 := 0, y1 := 0, x2 := 10, y2 := 10 }]
     []
     (some [{ cocoName := "car", conf := 1, x1 := 0, y1 := 0, x2 := 4, y2 := 4, track_id := 7 }])⟩

end DroneVision
